import Mathlib

/-!
Shallow embedding of the daily-journal backend's entry query/aggregation
layer (Mongoose `Entry` model, `User` model and Express entry routes),
together with proofs about the specified behaviour.

The persistent store is modelled as a `List Entry` in insertion order; a
query without an explicit sort returns matching documents in that order.
Dates are modelled by their UTC calendar components (a JS `Date` is an
absolute instant; we assume the server clock is UTC so that local
construction and `toISOString` agree), with chronological order given by
the mixed-radix component encoding, which agrees with instant order for
in-range components.
-/

/-- A JS `Date` value, by its UTC calendar components. -/
structure JDate where
  year : Nat
  month : Nat
  day : Nat
  hour : Nat
  minute : Nat
  second : Nat
  ms : Nat
deriving DecidableEq, Repr

/-- Mixed-radix encoding of a date; for in-range components (month 1-12,
day 1-31, hour < 24, minute < 60, second < 60, ms < 1000) this encoding is
order-isomorphic to the timestamp the JS `Date` stores. -/
def JDate.code (d : JDate) : Nat :=
  (((((d.year * 13 + d.month) * 32 + d.day) * 24 + d.hour) * 60
      + d.minute) * 60 + d.second) * 1000 + d.ms

/-- Chronological order on dates (MongoDB `$lte`/`$gte` on `Date`). -/
def dateLe (a b : JDate) : Prop := a.code ≤ b.code

instance (a b : JDate) : Decidable (dateLe a b) :=
  inferInstanceAs (Decidable (a.code ≤ b.code))

/-- Split a character list at whitespace runs, dropping empty pieces;
`cur` holds the (reversed) token being read. -/
def tokensAux : List Char → List Char → List (List Char)
  | [], [] => []
  | [], cur => [cur.reverse]
  | c :: rest, cur =>
    if c.isWhitespace then
      if cur.isEmpty then tokensAux rest []
      else cur.reverse :: tokensAux rest []
    else tokensAux rest (c :: cur)

/-- The whitespace-delimited non-empty tokens of a string:
`s.trim().split(/\s+/).filter((word) => word.length > 0)` (trimming and
dropping empty pieces coincide with skipping whitespace runs). -/
def tokensOf (s : String) : List String :=
  (tokensAux s.data []).map (fun cs => String.mk cs)

/-- `content.trim().split(/\s+/).filter((word) => word.length > 0).length`
from the `pre("save")` hook: number of whitespace-delimited non-empty
tokens. -/
def countWords (s : String) : Nat :=
  (tokensOf s).length

/-- A journal entry document (fields the specified behaviour depends on;
unused metadata sub-documents are omitted). -/
structure Entry where
  eid : Nat
  userId : Nat
  title : String
  content : String
  mood : String
  category : String
  tags : List String
  wordCount : Nat
  readingTime : Nat
  date : JDate
  isPrivate : Bool
  isFavorite : Bool
deriving DecidableEq, Repr

/-- The `entrySchema.pre("save")` hook: recompute `wordCount` from the
content and `readingTime` as `Math.ceil(wordCount / 200)`; an empty
(falsy) content yields zero for both. -/
def preSave (e : Entry) : Entry :=
  if e.content ≠ "" then
    let wc := countWords e.content
    { e with wordCount := wc, readingTime := (wc + 199) / 200 }
  else
    { e with wordCount := 0, readingTime := 0 }

/-- `POST /api/entries`: `new Entry(data)` followed by `entry.save()`,
which runs the `pre("save")` hook and inserts the document. -/
def createEntry (store : List Entry) (e : Entry) : List Entry :=
  store ++ [preSave e]

/-- Body of a `PUT /api/entries/:id` request, validated by
`updateEntrySchema` (every field optional; `wordCount` is accepted;
`userId` is not an allowed key). -/
structure UpdateBody where
  title : Option String := none
  content : Option String := none
  mood : Option String := none
  category : Option String := none
  tags : Option (List String) := none
  date : Option JDate := none
  isPrivate : Option Bool := none
  wordCount : Option Nat := none
deriving Repr

/-- Apply an update payload to a document: each present field overwrites
the stored one (`{ ...req.body }` fields in `findOneAndUpdate`). -/
def applyUpdate (e : Entry) (b : UpdateBody) : Entry :=
  { e with
    title := b.title.getD e.title
    content := b.content.getD e.content
    mood := b.mood.getD e.mood
    category := b.category.getD e.category
    tags := b.tags.getD e.tags
    date := b.date.getD e.date
    isPrivate := b.isPrivate.getD e.isPrivate
    wordCount := b.wordCount.getD e.wordCount }

/-- `Entry.findOne({ _id: id, userId })`. -/
def findOneEntry (store : List Entry) (id uid : Nat) : Option Entry :=
  store.find? (fun e => e.eid == id && e.userId == uid)

/-- `PUT /api/entries/:id`: `Entry.findOneAndUpdate({_id, userId}, body,
{new: true, runValidators: true})`. This is a query-level update: the
document-level `pre("save")` hook does not run, so the stored fields are
exactly the updated ones. Returns the updated document (if found) and the
new store. -/
def updateEntry : List Entry → Nat → Nat → UpdateBody →
    Option Entry × List Entry
  | [], _, _, _ => (none, [])
  | e :: rest, id, uid, b =>
    if e.eid == id && e.userId == uid then
      (some (applyUpdate e b), applyUpdate e b :: rest)
    else
      let r := updateEntry rest id uid b
      (r.1, e :: r.2)

/-- Remove the first document matching `{_id, userId}`. -/
def removeEntry : List Entry → Nat → Nat → List Entry
  | [], _, _ => []
  | e :: rest, id, uid =>
    if e.eid == id && e.userId == uid then rest
    else e :: removeEntry rest id uid

/-- `DELETE /api/entries/:id`: `Entry.findOneAndDelete({_id, userId})`,
returning the deleted document (if any) and the new store. -/
def deleteEntry (store : List Entry) (id uid : Nat) :
    Option Entry × List Entry :=
  match findOneEntry store id uid with
  | none => (none, store)
  | some e => (some e, removeEntry store id uid)

/-- Replace the first document matching `{_id, userId}` by `e'`. -/
def replaceEntry : List Entry → Nat → Nat → Entry → List Entry
  | [], _, _, _ => []
  | e :: rest, id, uid, e' =>
    if e.eid == id && e.userId == uid then e' :: rest
    else e :: replaceEntry rest id uid e'

/-- `PATCH /api/entries/:id/favorite`: fetch the owned document, flip
`isFavorite`, then `entry.save()` (which runs the `pre("save")` hook and
persists the whole document). Returns the saved document and new store. -/
def toggleFavorite (store : List Entry) (id uid : Nat) :
    Option Entry × List Entry :=
  match findOneEntry store id uid with
  | none => (none, store)
  | some e =>
    let e' := preSave { e with isFavorite := !e.isFavorite }
    (some e', replaceEntry store id uid e')

/-- The `entry_text_index` weights declared on the schema:
`{title: 10, content: 5, tags: 1}`. -/
def titleWeight : Nat := 10

/-- Weight of `content` in `entry_text_index`. -/
def contentWeight : Nat := 5

/-- Weight of `tags` in `entry_text_index`. -/
def tagsWeight : Nat := 1

/-- Model of MongoDB `$text` matching against `entry_text_index` (which
indexes `title`, `content` and `tags`): some search token occurs as a
token of the title or content, or equals one of the tags. -/
def textMatch (s : String) (e : Entry) : Bool :=
  (tokensOf s).any (fun t =>
    (tokensOf e.title).contains t || (tokensOf e.content).contains t ||
      e.tags.contains t)

/-- Model of the MongoDB text relevance score under the
`entry_text_index` weights: each search token contributes the weight of
every indexed field it occurs in. -/
def textScore (s : String) (e : Entry) : Nat :=
  (tokensOf s).foldl
    (fun acc t =>
      acc + (if (tokensOf e.title).contains t then titleWeight else 0)
          + (if (tokensOf e.content).contains t then contentWeight else 0)
          + (if e.tags.contains t then tagsWeight else 0)) 0

/-- Options accepted by `Entry.getEntriesWithFilters` (route query
parameters after numeric coercion), with the defaults of the source. -/
structure ListOptions where
  page : Nat := 1
  limit : Nat := 10
  mood : Option String := none
  category : Option String := none
  search : Option String := none
  startDate : Option JDate := none
  endDate : Option JDate := none
  sortBy : String := "date"
  sortOrder : String := "desc"
  isFavorite : Option Bool := none
deriving Repr

/-- The filter document built by `getEntriesWithFilters`: always
`{ userId }`, plus each supplied filter (`if (mood) query.mood = mood`
skips empty strings, which are falsy; `isFavorite` is only applied when
it is an actual boolean; date bounds are inclusive; `$text` when a
non-empty search string is given). -/
def matchesQuery (uid : Nat) (o : ListOptions) (e : Entry) : Bool :=
  e.userId == uid
    && (match o.mood with
        | some m => if m ≠ "" then e.mood == m else true
        | none => true)
    && (match o.category with
        | some c => if c ≠ "" then e.category == c else true
        | none => true)
    && (match o.isFavorite with
        | some b => e.isFavorite == b
        | none => true)
    && (match o.startDate with
        | some d => decide (dateLe d e.date)
        | none => true)
    && (match o.endDate with
        | some d => decide (dateLe e.date d)
        | none => true)
    && (match o.search with
        | some s => if s ≠ "" then textMatch s e else true
        | none => true)

/-- Ascending order on the named document field, covering every scalar
field of the modelled document. A key the model carries no order for
(the `tags` array, or a field name absent from every document, where all
documents tie) compares as always-tied, and the stable sort then
preserves scan order. -/
def fieldLeAsc (sortBy : String) (a b : Entry) : Prop :=
  if sortBy = "date" then dateLe a.date b.date
  else if sortBy = "wordCount" then a.wordCount ≤ b.wordCount
  else if sortBy = "readingTime" then a.readingTime ≤ b.readingTime
  else if sortBy = "title" then a.title ≤ b.title
  else if sortBy = "content" then a.content ≤ b.content
  else if sortBy = "mood" then a.mood ≤ b.mood
  else if sortBy = "category" then a.category ≤ b.category
  else if sortBy = "userId" then a.userId ≤ b.userId
  else if sortBy = "_id" then a.eid ≤ b.eid
  else if sortBy = "isPrivate" then a.isPrivate ≤ b.isPrivate
  else if sortBy = "isFavorite" then a.isFavorite ≤ b.isFavorite
  else True

/-- The sort relation produced by `sortOptions[sortBy] = sortOrder ===
"desc" ? -1 : 1`: ascending order on the named field, reversed when the
direction is `"desc"`. -/
def entryLe (sortBy sortOrder : String) (a b : Entry) : Prop :=
  if sortOrder = "desc" then fieldLeAsc sortBy b a else fieldLeAsc sortBy a b

instance (sortBy : String) (a b : Entry) : Decidable (fieldLeAsc sortBy a b) := by
  unfold fieldLeAsc
  infer_instance

instance (sortBy sortOrder : String) : DecidableRel (entryLe sortBy sortOrder) := by
  intro a b
  unfold entryLe
  infer_instance

instance (sortBy sortOrder : String) : IsTotal Entry (entryLe sortBy sortOrder) := by
  constructor
  have h : ∀ x y : Entry, fieldLeAsc sortBy x y ∨ fieldLeAsc sortBy y x := by
    intro x y
    unfold fieldLeAsc
    by_cases h1 : sortBy = "date"
    · rw [if_pos h1, if_pos h1]
      exact Nat.le_total x.date.code y.date.code
    rw [if_neg h1, if_neg h1]
    by_cases h2 : sortBy = "wordCount"
    · rw [if_pos h2, if_pos h2]
      exact Nat.le_total _ _
    rw [if_neg h2, if_neg h2]
    by_cases h3 : sortBy = "readingTime"
    · rw [if_pos h3, if_pos h3]
      exact Nat.le_total _ _
    rw [if_neg h3, if_neg h3]
    by_cases h4 : sortBy = "title"
    · rw [if_pos h4, if_pos h4]
      exact le_total _ _
    rw [if_neg h4, if_neg h4]
    by_cases h5 : sortBy = "content"
    · rw [if_pos h5, if_pos h5]
      exact le_total _ _
    rw [if_neg h5, if_neg h5]
    by_cases h6 : sortBy = "mood"
    · rw [if_pos h6, if_pos h6]
      exact le_total _ _
    rw [if_neg h6, if_neg h6]
    by_cases h7 : sortBy = "category"
    · rw [if_pos h7, if_pos h7]
      exact le_total _ _
    rw [if_neg h7, if_neg h7]
    by_cases h8 : sortBy = "userId"
    · rw [if_pos h8, if_pos h8]
      exact Nat.le_total _ _
    rw [if_neg h8, if_neg h8]
    by_cases h9 : sortBy = "_id"
    · rw [if_pos h9, if_pos h9]
      exact Nat.le_total _ _
    rw [if_neg h9, if_neg h9]
    by_cases h10 : sortBy = "isPrivate"
    · rw [if_pos h10, if_pos h10]
      exact le_total _ _
    rw [if_neg h10, if_neg h10]
    by_cases h11 : sortBy = "isFavorite"
    · rw [if_pos h11, if_pos h11]
      exact le_total _ _
    rw [if_neg h11, if_neg h11]
    exact Or.inl trivial
  intro a b
  unfold entryLe
  by_cases hso : sortOrder = "desc"
  · rw [if_pos hso, if_pos hso]
    exact (h b a).elim Or.inl Or.inr
  · rw [if_neg hso, if_neg hso]
    exact h a b

instance (sortBy sortOrder : String) : IsTrans Entry (entryLe sortBy sortOrder) := by
  constructor
  have h : ∀ x y z : Entry, fieldLeAsc sortBy x y → fieldLeAsc sortBy y z →
      fieldLeAsc sortBy x z := by
    intro x y z hxy hyz
    unfold fieldLeAsc at hxy hyz ⊢
    by_cases h1 : sortBy = "date"
    · rw [if_pos h1] at hxy hyz ⊢
      exact Nat.le_trans hxy hyz
    rw [if_neg h1] at hxy hyz ⊢
    by_cases h2 : sortBy = "wordCount"
    · rw [if_pos h2] at hxy hyz ⊢
      exact Nat.le_trans hxy hyz
    rw [if_neg h2] at hxy hyz ⊢
    by_cases h3 : sortBy = "readingTime"
    · rw [if_pos h3] at hxy hyz ⊢
      exact Nat.le_trans hxy hyz
    rw [if_neg h3] at hxy hyz ⊢
    by_cases h4 : sortBy = "title"
    · rw [if_pos h4] at hxy hyz ⊢
      exact le_trans hxy hyz
    rw [if_neg h4] at hxy hyz ⊢
    by_cases h5 : sortBy = "content"
    · rw [if_pos h5] at hxy hyz ⊢
      exact le_trans hxy hyz
    rw [if_neg h5] at hxy hyz ⊢
    by_cases h6 : sortBy = "mood"
    · rw [if_pos h6] at hxy hyz ⊢
      exact le_trans hxy hyz
    rw [if_neg h6] at hxy hyz ⊢
    by_cases h7 : sortBy = "category"
    · rw [if_pos h7] at hxy hyz ⊢
      exact le_trans hxy hyz
    rw [if_neg h7] at hxy hyz ⊢
    by_cases h8 : sortBy = "userId"
    · rw [if_pos h8] at hxy hyz ⊢
      exact Nat.le_trans hxy hyz
    rw [if_neg h8] at hxy hyz ⊢
    by_cases h9 : sortBy = "_id"
    · rw [if_pos h9] at hxy hyz ⊢
      exact Nat.le_trans hxy hyz
    rw [if_neg h9] at hxy hyz ⊢
    by_cases h10 : sortBy = "isPrivate"
    · rw [if_pos h10] at hxy hyz ⊢
      exact le_trans hxy hyz
    rw [if_neg h10] at hxy hyz ⊢
    by_cases h11 : sortBy = "isFavorite"
    · rw [if_pos h11] at hxy hyz ⊢
      exact le_trans hxy hyz
    rw [if_neg h11] at hxy hyz ⊢
    trivial
  intro a b c hab hbc
  unfold entryLe at hab hbc ⊢
  by_cases hso : sortOrder = "desc"
  · rw [if_pos hso] at hab hbc ⊢
    exact h c b a hbc hab
  · rw [if_neg hso] at hab hbc ⊢
    exact h a b c hab hbc

/-- `.sort(sortOptions)` on the matched documents (a stable sort under
the requested relation). -/
def sortEntries (sortBy sortOrder : String) (l : List Entry) : List Entry :=
  List.insertionSort (entryLe sortBy sortOrder) l

/-- `Math.ceil(total / limit)` on naturals (for a positive limit). -/
def jsCeilDiv (a b : Nat) : Nat := (a + b - 1) / b

/-- The `pagination` object returned by `getEntriesWithFilters`. -/
structure Pagination where
  currentPage : Nat
  totalPages : Nat
  totalEntries : Nat
  hasNext : Bool
  hasPrev : Bool
deriving DecidableEq, Repr

/-- Result of `getEntriesWithFilters`. -/
structure ListResult where
  entries : List Entry
  pagination : Pagination
deriving DecidableEq, Repr

/-- `Entry.getEntriesWithFilters(userId, options)`: filter, sort by the
requested field, paginate with `skip((page-1)*limit).limit(limit)`, and
count the matching documents for the pagination object. -/
def getEntriesWithFilters (store : List Entry) (uid : Nat)
    (o : ListOptions) : ListResult :=
  let matched := store.filter (matchesQuery uid o)
  let sorted := sortEntries o.sortBy o.sortOrder matched
  let total := matched.length
  { entries := (sorted.drop ((o.page - 1) * o.limit)).take o.limit
    pagination :=
      { currentPage := o.page
        totalPages := jsCeilDiv total o.limit
        totalEntries := total
        hasNext := decide (o.page * o.limit < total)
        hasPrev := decide (1 < o.page) } }

/-- `GET /api/entries`: the route applies no validation to the query
parameters; it simply calls `getEntriesWithFilters` and wraps the result
(the `try/catch` only turns internal store failures into errors). -/
def listEntriesRoute (store : List Entry) (uid : Nat) (o : ListOptions) :
    Except String ListResult :=
  .ok (getEntriesWithFilters store uid o)

/-- The `mood` enumeration of `entrySchema`. -/
def validMoods : List String :=
  ["happy", "sad", "excited", "calm", "anxious", "grateful", "angry",
   "neutral"]

/-- The `category` enumeration of `entrySchema`. -/
def validCategories : List String :=
  ["Personal", "Work", "Health", "Relationships", "Goals", "Travel",
   "Learning", "Reflection"]

/-- Number of days in a (Gregorian) month, as JS
`new Date(year, month, 0).getDate()` computes it. -/
def daysInMonth (y m : Nat) : Nat :=
  if m = 2 then
    if y % 4 = 0 && (y % 100 ≠ 0 || y % 400 = 0) then 29 else 28
  else if m = 4 || m = 6 || m = 9 || m = 11 then 30
  else 31

/-- `new Date(year, month - 1, 1)`: first instant of the month. -/
def monthStart (y m : Nat) : JDate := ⟨y, m, 1, 0, 0, 0, 0⟩

/-- `new Date(year, month, 0, 23, 59, 59, 999)`: last instant of the
month. -/
def monthEnd (y m : Nat) : JDate := ⟨y, m, daysInMonth y m, 23, 59, 59, 999⟩

/-- Left-pad a numeral to two digits. -/
def pad2 (n : Nat) : String :=
  if n < 10 then "0" ++ toString n else toString n

/-- Left-pad a numeral to four digits. -/
def pad4 (n : Nat) : String :=
  if n < 10 then "000" ++ toString n
  else if n < 100 then "00" ++ toString n
  else if n < 1000 then "0" ++ toString n
  else toString n

/-- `entry.date.toISOString().split("T")[0]`: the `YYYY-MM-DD` calendar
day of the date. -/
def dateKey (d : JDate) : String :=
  pad4 d.year ++ "-" ++ pad2 d.month ++ "-" ++ pad2 d.day

/-- One step of the calendar grouping loop:
`if (!entriesByDate[dateKey]) entriesByDate[dateKey] = [];
entriesByDate[dateKey].push(entry)`. A JS object with string keys keeps
insertion order, modelled as an association list. -/
def groupPush : List (String × List Entry) → String → Entry →
    List (String × List Entry)
  | [], k, e => [(k, [e])]
  | p :: rest, k, e =>
    if p.1 = k then (p.1, p.2 ++ [e]) :: rest
    else p :: groupPush rest k e

/-- The `entriesByDate` grouping of the calendar route. -/
def groupByDate (es : List Entry) : List (String × List Entry) :=
  es.foldl (fun m e => groupPush m (dateKey e.date) e) []

/-- Keys of a grouping, in insertion order. -/
def keysOf (m : List (String × List Entry)) : List String :=
  m.map Prod.fst

/-- Total number of grouped entries. -/
def sumSizes (m : List (String × List Entry)) : Nat :=
  (m.map (fun p => p.2.length)).sum

/-- First-occurrence deduplication of a list of keys (insertion order of
a JS object fed those keys in sequence). -/
def dedupFirst (l : List String) : List String :=
  l.foldl (fun acc k => if k ∈ acc then acc else acc ++ [k]) []

/-- Response of `GET /api/entries/calendar/:year/:month`. -/
structure CalendarResult where
  year : Nat
  month : Nat
  entries : List (String × List Entry)
  totalEntries : Nat

/-- The calendar route: find the user's entries with `date` between the
first and last instants of the month (inclusive), sorted by date
ascending, group them by calendar day, and return the grouping together
with the ungrouped count. -/
def calendarView (store : List Entry) (uid : Nat) (y m : Nat) :
    CalendarResult :=
  let matched := store.filter (fun e =>
    e.userId == uid && decide (dateLe (monthStart y m) e.date)
      && decide (dateLe e.date (monthEnd y m)))
  let scan := sortEntries "date" "asc" matched
  { year := y, month := m, entries := groupByDate scan,
    totalEntries := scan.length }

/-- The `stats` sub-document of `userSchema`. -/
structure UserStats where
  totalEntries : Nat := 0
  totalWords : Nat := 0
  streak : Nat := 0
  lastEntryDate : Option JDate := none
deriving DecidableEq, Repr

/-- A user document (fields the specified behaviour depends on). -/
structure User where
  uid : Nat
  name : String
  email : String
  password : String
  theme : String := "light"
  stats : UserStats := {}
  isActive : Bool := true
  createdAt : JDate := ⟨1970, 1, 1, 0, 0, 0, 0⟩
deriving DecidableEq, Repr

/-- `userSchema.methods.updateStats`: re-scan the user's entries with an
unsorted `Entry.find({userId})` (scan order = insertion order) and set
`totalEntries` to the result count, `totalWords` to the sum of the
entries' word counts, and `lastEntryDate` to `entries[0].date` (the
first scanned entry) or `null` when there are none. `streak` is left
unchanged. -/
def updateStats (store : List Entry) (u : User) : User :=
  let entries := store.filter (fun e => e.userId == u.uid)
  { u with stats :=
    { u.stats with
      totalEntries := entries.length
      totalWords := entries.foldl (fun t e => t + e.wordCount) 0
      lastEntryDate := entries.head?.map (fun e => e.date) } }

/-- `Math.round(a / b)` on naturals (exact rational rounding, halves
up), used for `averageWordsPerEntry`. -/
def jsRound (a b : Nat) : Nat := (2 * a + b) / (2 * b)

/-- The numeric part of the `GET /api/entries/stats/summary` response. -/
structure SummaryStats where
  totalEntries : Nat
  totalWords : Nat
  averageWordsPerEntry : Nat
deriving DecidableEq, Repr

/-- The summary route: `totalEntries` by `countDocuments({userId})`,
`totalWords` by an aggregate `$sum` of `wordCount` over the user's
entries (an empty aggregation yields `0`), and `averageWordsPerEntry` as
`Math.round(totalWords / totalEntries)` when any entries exist, else
`0`. -/
def statsSummary (store : List Entry) (uid : Nat) : SummaryStats :=
  let totalEntries := (store.filter (fun e => e.userId == uid)).length
  let totalWords :=
    (store.filter (fun e => e.userId == uid)).foldl
      (fun acc e => acc + e.wordCount) 0
  { totalEntries := totalEntries
    totalWords := totalWords
    averageWordsPerEntry :=
      if 0 < totalEntries then jsRound totalWords totalEntries else 0 }

/-- `this.toObject()` on a user: the document's own fields as key/value
pairs (values rendered as strings; only the key set matters here). -/
def User.toObject (u : User) : List (String × String) :=
  [("_id", toString u.uid), ("name", u.name), ("email", u.email),
   ("password", u.password), ("theme", u.theme),
   ("stats", toString u.stats.totalEntries), ("isActive", toString u.isActive),
   ("createdAt", dateKey u.createdAt)]

/-- `userSchema.methods.toJSON`: take `toObject()` and
`delete userObject.password`. -/
def User.toJSON (u : User) : List (String × String) :=
  (User.toObject u).filter (fun kv => kv.1 ≠ "password")

/-- The explicit user object built by `GET /api/auth/me` (auth route):
`{id, name, email, preferences, stats, createdAt}`. -/
def meResponse (u : User) : List (String × String) :=
  [("id", toString u.uid), ("name", u.name), ("email", u.email),
   ("preferences", u.theme), ("stats", toString u.stats.totalEntries),
   ("createdAt", dateKey u.createdAt)]

/-! Concrete fixtures used by the witnesses and counterexamples. -/

/-- A fixture date: 2024-01-05, 10:00 UTC. -/
def wDate1 : JDate := ⟨2024, 1, 5, 10, 0, 0, 0⟩

/-- A fixture date: 2024-06-01, 09:30 UTC. -/
def wDate2 : JDate := ⟨2024, 6, 1, 9, 30, 0, 0⟩

/-- A fixture date: 2024-01-05, 12:00 UTC. -/
def wDate3 : JDate := ⟨2024, 1, 5, 12, 0, 0, 0⟩

/-- Fixture entry of user 1 whose title mentions "lisbon". -/
def wEntry1 : Entry :=
  { eid := 1, userId := 1, title := "trip to lisbon",
    content := "we walked around", mood := "happy", category := "Travel",
    tags := [], wordCount := 3, readingTime := 1, date := wDate1,
    isPrivate := true, isFavorite := false }

/-- Fixture entry of user 1, later-dated, tagged "lisbon". -/
def wEntry2 : Entry :=
  { eid := 2, userId := 1, title := "notes", content := "plain text here",
    mood := "calm", category := "Personal", tags := ["lisbon"],
    wordCount := 3, readingTime := 1, date := wDate2,
    isPrivate := true, isFavorite := false }

/-- Fixture entry of a different user (user 2). -/
def wEntry3 : Entry :=
  { eid := 3, userId := 2, title := "other", content := "not yours",
    mood := "sad", category := "Work", tags := [], wordCount := 2,
    readingTime := 1, date := wDate3, isPrivate := true,
    isFavorite := true }

/-- Fixture entry of user 1 on the same calendar day as `wEntry1`. -/
def wEntry4 : Entry :=
  { eid := 4, userId := 1, title := "later same day",
    content := "more words here now", mood := "grateful",
    category := "Reflection", tags := [], wordCount := 4,
    readingTime := 1, date := wDate3, isPrivate := true,
    isFavorite := false }

/-- Fixture store holding entries of two users, in insertion order. -/
def wStore : List Entry := [wEntry1, wEntry2, wEntry3]

/-- Fixture store for the calendar view: two user-1 entries on the same
January day plus one in June. -/
def wCalStore : List Entry := [wEntry1, wEntry2, wEntry4]

/-- Fixture user owning `wEntry1` and `wEntry2`. -/
def wUser : User := { uid := 1, name := "ada", email := "a@b.co",
                      password := "secret-hash" }

/-! Helper lemmas about the embedded operations. -/

theorem dateLe_total (a b : JDate) : dateLe a b ∨ dateLe b a :=
  Nat.le_total a.code b.code

theorem dateLe_trans {a b c : JDate} (h1 : dateLe a b) (h2 : dateLe b c) :
    dateLe a c := Nat.le_trans h1 h2

theorem preSave_userId (e : Entry) : (preSave e).userId = e.userId := by
  unfold preSave; split <;> rfl

theorem preSave_eid (e : Entry) : (preSave e).eid = e.eid := by
  unfold preSave; split <;> rfl

theorem preSave_isFavorite (e : Entry) :
    (preSave e).isFavorite = e.isFavorite := by
  unfold preSave; split <;> rfl

theorem matchesQuery_userId {uid : Nat} {o : ListOptions} {e : Entry}
    (h : matchesQuery uid o e = true) : e.userId = uid := by
  unfold matchesQuery at h
  simp only [Bool.and_eq_true, beq_iff_eq] at h
  exact h.1.1.1.1.1.1

theorem matchesQuery_search {uid : Nat} {o : ListOptions} {e : Entry}
    {s : String} (h : matchesQuery uid o e = true) (hs : o.search = some s)
    (hne : s ≠ "") : textMatch s e = true := by
  unfold matchesQuery at h
  simp only [Bool.and_eq_true] at h
  have h6 := h.2
  rw [hs] at h6
  simpa [hne] using h6

theorem mem_entries_of_getEntries {store : List Entry} {uid : Nat}
    {o : ListOptions} {e : Entry}
    (h : e ∈ (getEntriesWithFilters store uid o).entries) :
    e ∈ store.filter (matchesQuery uid o) := by
  unfold getEntriesWithFilters at h
  simp only at h
  have h1 : e ∈ sortEntries o.sortBy o.sortOrder
      (store.filter (matchesQuery uid o)) :=
    List.drop_subset _ _ (List.take_subset _ _ h)
  unfold sortEntries at h1
  exact (List.mem_insertionSort _).mp h1

theorem findOneEntry_spec {store : List Entry} {id uid : Nat} {e : Entry}
    (h : findOneEntry store id uid = some e) :
    e.eid = id ∧ e.userId = uid ∧ e ∈ store := by
  unfold findOneEntry at h
  have hp := List.find?_some h
  have hm := List.mem_of_find?_eq_some h
  simp only [Bool.and_eq_true, beq_iff_eq] at hp
  exact ⟨hp.1, hp.2, hm⟩

theorem updateEntry_userId :
    ∀ (store : List Entry) (id uid : Nat) (b : UpdateBody) (e : Entry),
      (updateEntry store id uid b).1 = some e → e.userId = uid
  | [], _, _, _, _, h => by simp [updateEntry] at h
  | x :: rest, id, uid, b, e, h => by
    unfold updateEntry at h
    by_cases hc : (x.eid == id && x.userId == uid) = true
    · rw [if_pos hc] at h
      simp only [Option.some.injEq] at h
      simp only [Bool.and_eq_true, beq_iff_eq] at hc
      have : (applyUpdate x b).userId = x.userId := rfl
      rw [← h, this]
      exact hc.2
    · rw [if_neg hc] at h
      exact updateEntry_userId rest id uid b e h

theorem replaceEntry_find {store : List Entry} {id uid : Nat} {e e' : Entry}
    (h : findOneEntry store id uid = some e)
    (hp : (e'.eid == id && e'.userId == uid) = true) :
    findOneEntry (replaceEntry store id uid e') id uid = some e' := by
  induction store with
  | nil => simp [findOneEntry] at h
  | cons x rest ih =>
    unfold findOneEntry at h
    unfold replaceEntry
    by_cases hc : (x.eid == id && x.userId == uid) = true
    · rw [if_pos hc]
      unfold findOneEntry
      simp [List.find?, hp]
    · rw [if_neg hc]
      unfold findOneEntry
      rw [List.find?] at h ⊢
      rw [Bool.of_not_eq_true hc] at h ⊢
      exact ih h

theorem sumSizes_groupPush (m : List (String × List Entry)) (k : String)
    (e : Entry) : sumSizes (groupPush m k e) = sumSizes m + 1 := by
  induction m with
  | nil => simp [groupPush, sumSizes]
  | cons p rest ih =>
    unfold groupPush
    by_cases hc : p.1 = k
    · rw [if_pos hc]
      simp [sumSizes, List.map_cons]
      omega
    · rw [if_neg hc]
      simp only [sumSizes, List.map_cons, List.sum_cons] at ih ⊢
      omega

theorem groupPush_inv {P : String → Entry → Prop}
    {m : List (String × List Entry)} {k : String} {e : Entry}
    (hm : ∀ p ∈ m, ∀ x ∈ p.2, P p.1 x) (he : P k e) :
    ∀ p ∈ groupPush m k e, ∀ x ∈ p.2, P p.1 x := by
  induction m with
  | nil =>
    intro p hp x hx
    simp [groupPush] at hp
    subst hp
    simp at hx
    subst hx
    exact he
  | cons q rest ih =>
    intro p hp x hx
    unfold groupPush at hp
    by_cases hc : q.1 = k
    · rw [if_pos hc] at hp
      rcases List.mem_cons.mp hp with h1 | h2
      · subst h1
        simp only at hx
        rcases List.mem_append.mp hx with hx1 | hx2
        · exact hm q (List.mem_cons_self q rest) x hx1
        · simp at hx2
          subst hx2
          rw [hc]
          exact he
      · exact hm p (List.mem_cons_of_mem q h2) x hx
    · rw [if_neg hc] at hp
      rcases List.mem_cons.mp hp with h1 | h2
      · subst h1
        exact hm p (List.mem_cons_self p rest) x hx
      · exact ih (fun r hr => hm r (List.mem_cons_of_mem q hr)) p h2 x hx

theorem keysOf_groupPush (m : List (String × List Entry)) (k : String)
    (e : Entry) :
    keysOf (groupPush m k e) =
      if k ∈ keysOf m then keysOf m else keysOf m ++ [k] := by
  induction m with
  | nil => simp [groupPush, keysOf]
  | cons p rest ih =>
    unfold groupPush
    by_cases hc : p.1 = k
    · rw [if_pos hc]
      have hk : k ∈ keysOf (p :: rest) := by
        simp [keysOf, hc.symm]
      rw [if_pos hk]
      simp [keysOf]
    · rw [if_neg hc]
      have h1 : keysOf (p :: rest) = p.1 :: keysOf rest := rfl
      have h2 : keysOf (p :: groupPush rest k e) =
          p.1 :: keysOf (groupPush rest k e) := rfl
      rw [h2, ih, h1]
      by_cases hk : k ∈ keysOf rest
      · rw [if_pos hk, if_pos (List.mem_cons_of_mem p.1 hk)]
      · have hknot : k ∉ p.1 :: keysOf rest := by
          intro hmem
          rcases List.mem_cons.mp hmem with h | h
          · exact hc h.symm
          · exact hk h
        rw [if_neg hk, if_neg hknot]
        simp

theorem sumSizes_foldl (es : List Entry) :
    ∀ m, sumSizes (es.foldl (fun acc e => groupPush acc (dateKey e.date) e) m)
      = sumSizes m + es.length := by
  induction es with
  | nil => intro m; simp
  | cons e rest ih =>
    intro m
    simp only [List.foldl_cons, List.length_cons]
    rw [ih, sumSizes_groupPush]
    omega

theorem keysOf_foldl (es : List Entry) :
    ∀ m, keysOf (es.foldl (fun acc e => groupPush acc (dateKey e.date) e) m)
      = es.foldl
          (fun acc e =>
            if dateKey e.date ∈ acc then acc else acc ++ [dateKey e.date])
          (keysOf m) := by
  induction es with
  | nil => intro m; simp
  | cons e rest ih =>
    intro m
    simp only [List.foldl_cons]
    rw [ih, keysOf_groupPush]

theorem groupByDate_inv {Q : Entry → Prop} {es : List Entry}
    (he : ∀ e ∈ es, Q e) :
    ∀ p ∈ groupByDate es, ∀ x ∈ p.2, Q x ∧ dateKey x.date = p.1 := by
  unfold groupByDate
  suffices h : ∀ (l : List Entry) (m : List (String × List Entry)),
      (∀ e ∈ l, Q e) →
      (∀ p ∈ m, ∀ x ∈ p.2, Q x ∧ dateKey x.date = p.1) →
      ∀ p ∈ l.foldl (fun acc e => groupPush acc (dateKey e.date) e) m,
        ∀ x ∈ p.2, Q x ∧ dateKey x.date = p.1 by
    exact h es [] he (by simp)
  intro l
  induction l with
  | nil => intro m _ hm; simpa using hm
  | cons e rest ih =>
    intro m hl hm
    simp only [List.foldl_cons]
    exact ih (groupPush m (dateKey e.date) e)
      (fun x hx => hl x (List.mem_cons_of_mem e hx))
      (groupPush_inv (P := fun k x => Q x ∧ dateKey x.date = k) hm
        ⟨hl e (List.mem_cons_self e rest), rfl⟩)

theorem jsCeilDiv_eq_ceil {a b : Nat} (hb : 0 < b) :
    jsCeilDiv a b = Nat.ceil ((a : ℚ) / (b : ℚ)) := by
  have hbq : (0 : ℚ) < (b : ℚ) := by exact_mod_cast hb
  have hdm := Nat.div_add_mod (a + b - 1) b
  have hr : (a + b - 1) % b < b := Nat.mod_lt _ hb
  unfold jsCeilDiv
  apply Nat.le_antisymm
  · rcases Nat.eq_zero_or_pos ((a + b - 1) / b) with hc | hc
    · simp [hc]
    · obtain ⟨c, hceq⟩ : ∃ c, (a + b - 1) / b = c + 1 :=
        ⟨(a + b - 1) / b - 1, by omega⟩
      rw [hceq] at hdm
      have h2 : (c + 1 - 1) * b < a := by
        rw [Nat.mul_succ] at hdm
        rw [Nat.add_sub_cancel, Nat.mul_comm]
        omega
      have h3 : (((c + 1 - 1) : ℕ) : ℚ) < (a : ℚ) / (b : ℚ) := by
        rw [lt_div_iff₀ hbq]
        exact_mod_cast h2
      have h4 := Nat.lt_ceil.mpr h3
      omega
  · apply Nat.ceil_le.mpr
    have h1 : a ≤ (a + b - 1) / b * b := by
      rw [Nat.mul_comm]
      omega
    rw [div_le_iff₀ hbq]
    exact_mod_cast h1

theorem jsRound_eq_round {a b : Nat} (hb : 0 < b) :
    ((jsRound a b : ℕ) : ℤ) = round ((a : ℚ) / (b : ℚ)) := by
  have hbq : (0 : ℚ) < (b : ℚ) := by exact_mod_cast hb
  have hkey : (a : ℚ) / (b : ℚ) + 1 / 2 =
      ((2 * a + b : ℕ) : ℚ) / ((2 * b : ℕ) : ℚ) := by
    push_cast
    field_simp
    ring
  rw [round_eq, hkey]
  have hq : (0 : ℚ) ≤ ((2 * a + b : ℕ) : ℚ) / ((2 * b : ℕ) : ℚ) := by
    apply div_nonneg <;> positivity
  rw [← Int.natCast_floor_eq_floor hq, Nat.floor_div_eq_div]
  rfl

theorem foldl_add_wordCount (l : List Entry) :
    l.foldl (fun acc e => acc + e.wordCount) 0 =
      (l.map (fun e => e.wordCount)).sum := by
  suffices h : ∀ n, l.foldl (fun acc e => acc + e.wordCount) n =
      n + (l.map (fun e => e.wordCount)).sum by
    simpa using h 0
  induction l with
  | nil => intro n; simp
  | cons e rest ih =>
    intro n
    simp only [List.foldl_cons, List.map_cons, List.sum_cons]
    rw [ih]
    omega

/-! The claims. -/

/-- C1: the claim is that every content-setting operation, update via PUT
included, recomputes the persisted word count from the content and
overrides any caller-supplied value. The PUT route uses
`findOneAndUpdate`, which does not run the document `pre("save")` hook:
updating the content `"one two three four"` together with a caller word
count of `999` persists word count `999`, not the recomputed `4`. -/
theorem c1_put_keeps_caller_wordCount :
    ∃ d : Entry,
      (updateEntry wStore 1 1
        { content := some "one two three four",
          wordCount := some 999 }).1 = some d ∧
      d.content = "one two three four" ∧
      d.wordCount = 999 ∧
      countWords d.content = 4 ∧
      d.wordCount ≠ countWords d.content := by
  refine ⟨applyUpdate wEntry1 { content := some "one two three four", wordCount := some 999 },
    by decide, by decide, by decide, by decide, by decide⟩

/-- C7: the claim is that after every create/update/delete the recomputed
`stats.lastEntryDate` is the date of the most recently dated entry. The
recomputation reads `entries[0].date` from an unsorted scan, i.e. the
first-stored entry: after creating an entry dated `wDate1` and then one
dated `wDate2` (later), the recomputed `lastEntryDate` is `wDate1`,
although the most recently dated entry has date `wDate2`. -/
theorem c7_lastEntryDate_is_first_stored :
    (updateStats (createEntry (createEntry [] wEntry1) wEntry2)
        (updateStats (createEntry [] wEntry1) wUser)).stats.lastEntryDate
      = some wDate1 ∧
    (createEntry (createEntry [] wEntry1) wEntry2).map (fun e => e.date)
      = [wDate1, wDate2] ∧
    dateLe wDate1 wDate2 ∧
    wDate1 ≠ wDate2 := by
  refine ⟨by decide, by decide, by decide, by decide⟩

/-- C8 counterexample: a list query with the invalid mood `"joyful"` (not
one of the 8 enumeration values) does not fail with a validation error:
the route succeeds and returns an empty, silently non-matching result
set. -/
theorem c8_invalid_mood_succeeds_empty :
    "joyful" ∉ validMoods ∧
    ∃ r, listEntriesRoute wStore 1 { mood := some "joyful" } = .ok r ∧
      r.entries = [] ∧ r.pagination.totalEntries = 0 :=
  ⟨by decide,
   getEntriesWithFilters wStore 1 { mood := some "joyful" }, rfl,
   by decide, by decide⟩

/-- C8 (amended): an out-of-enumeration mood or category value in a list
query is not validated; it is used as a literal equality filter, so
against any store whose entries carry valid moods and categories the
operation succeeds and returns an empty result set. -/
theorem c8_amended_invalid_filter_empty (store : List Entry) (uid : Nat)
    (o : ListOptions) (v : String) (hne : v ≠ "")
    (hv : (o.mood = some v ∧ v ∉ validMoods) ∨
          (o.category = some v ∧ v ∉ validCategories))
    (hstore : ∀ e ∈ store,
      e.mood ∈ validMoods ∧ e.category ∈ validCategories) :
    ∃ r, listEntriesRoute store uid o = .ok r ∧ r.entries = [] := by
  refine ⟨getEntriesWithFilters store uid o, rfl, ?_⟩
  have hfil : store.filter (matchesQuery uid o) = [] := by
    rw [List.filter_eq_nil_iff]
    intro e he hq
    unfold matchesQuery at hq
    simp only [Bool.and_eq_true] at hq
    rcases hv with ⟨hm, hmv⟩ | ⟨hc, hcv⟩
    · have h2 := hq.1.1.1.1.1.2
      rw [hm] at h2
      simp [hne] at h2
      exact hmv (h2 ▸ (hstore e he).1)
    · have h2 := hq.1.1.1.1.2
      rw [hc] at h2
      simp [hne] at h2
      exact hcv (h2 ▸ (hstore e he).2)
  unfold getEntriesWithFilters
  simp [hfil, sortEntries, List.insertionSort]

/-- C8 witness: the amended statement at the concrete store `wStore`,
user 1, once with the invalid mood `"joyful"` and once with the invalid
category `"Cooking"`. -/
theorem c8_amended_invalid_filter_empty_witness :
    (∀ e ∈ wStore, e.mood ∈ validMoods ∧ e.category ∈ validCategories) ∧
    "joyful" ∉ validMoods ∧ "Cooking" ∉ validCategories ∧
    (∃ r, listEntriesRoute wStore 1 { mood := some "joyful" } = .ok r ∧
      r.entries = []) ∧
    (∃ r, listEntriesRoute wStore 1 { category := some "Cooking" }
        = .ok r ∧ r.entries = []) :=
  ⟨by decide, by decide, by decide,
   c8_amended_invalid_filter_empty wStore 1 { mood := some "joyful" }
     "joyful" (by decide) (Or.inl ⟨rfl, by decide⟩) (by decide),
   c8_amended_invalid_filter_empty wStore 1 { category := some "Cooking" }
     "Cooking" (by decide) (Or.inr ⟨rfl, by decide⟩) (by decide)⟩

/-- C9: toggling the favorite flag twice returns the entry's
`isFavorite` to its original value. -/
theorem c9_toggle_favorite_involution (store : List Entry) (id uid : Nat)
    (e : Entry) (h : findOneEntry store id uid = some e) :
    ∃ e', (toggleFavorite (toggleFavorite store id uid).2 id uid).1
        = some e' ∧ e'.isFavorite = e.isFavorite := by
  have hs := findOneEntry_spec h
  have hp : ((preSave { e with isFavorite := !e.isFavorite }).eid == id &&
      (preSave { e with isFavorite := !e.isFavorite }).userId == uid)
      = true := by
    rw [preSave_eid, preSave_userId]
    simp only [Bool.and_eq_true, beq_iff_eq]
    exact ⟨hs.1, hs.2.1⟩
  have h1 : (toggleFavorite store id uid).2 =
      replaceEntry store id uid (preSave { e with isFavorite := !e.isFavorite }) := by
    unfold toggleFavorite
    rw [h]
  have h2 : findOneEntry
      (replaceEntry store id uid (preSave { e with isFavorite := !e.isFavorite }))
      id uid = some (preSave { e with isFavorite := !e.isFavorite }) :=
    replaceEntry_find h hp
  refine ⟨preSave { preSave { e with isFavorite := !e.isFavorite } with
    isFavorite := !(preSave { e with isFavorite := !e.isFavorite }).isFavorite }, ?_, ?_⟩
  · rw [h1]
    unfold toggleFavorite
    rw [h2]
  · rw [preSave_isFavorite]
    simp only [preSave_isFavorite]
    exact Bool.not_not e.isFavorite

/-- C9 witness: the involution at the concrete store `wStore`, entry 1,
user 1. -/
theorem c9_toggle_favorite_involution_witness :
    findOneEntry wStore 1 1 = some wEntry1 ∧
    ∃ e', (toggleFavorite (toggleFavorite wStore 1 1).2 1 1).1 = some e' ∧
      e'.isFavorite = wEntry1.isFavorite :=
  ⟨by decide, c9_toggle_favorite_involution wStore 1 1 wEntry1 (by decide)⟩

/-- C10: every JSON serialization of a user excludes the password field:
`toJSON` removes the `password` key, and the `/me` route's explicit
response object never contains it. -/
theorem c10_serialization_excludes_password (u : User) :
    (∀ kv ∈ User.toJSON u, kv.1 ≠ "password") ∧
    (∀ kv ∈ meResponse u, kv.1 ≠ "password") := by
  constructor
  · intro kv hkv
    have h := (List.mem_filter.mp hkv).2
    simpa using h
  · intro kv hkv
    unfold meResponse at hkv
    simp only [List.mem_cons, List.not_mem_nil, or_false] at hkv
    rcases hkv with h | h | h | h | h | h <;> rw [h] <;> simp

/-- C10 witness: the `toJSON` part at the concrete user `wUser` and its
first serialized field. -/
theorem c10_serialization_excludes_password_witness :
    ("_id", "1") ∈ User.toJSON wUser ∧ ("_id" : String) ≠ "password" :=
  ⟨by decide,
   (c10_serialization_excludes_password wUser).1 ("_id", "1") (by decide)⟩

/-- C2: every entry operation is scoped to the requesting user: every
entry returned by a list query (any filter combination) is owned by the
requesting user, and single-entry lookup, update, delete and
favorite-toggle only ever return a document whose `userId` is the
requester's. -/
theorem c2_operations_owner_scoped (store : List Entry) (uid : Nat)
    (o : ListOptions) (id : Nat) (b : UpdateBody) :
    (∀ e ∈ (getEntriesWithFilters store uid o).entries, e.userId = uid) ∧
    (∀ e, findOneEntry store id uid = some e → e.userId = uid) ∧
    (∀ e, (updateEntry store id uid b).1 = some e → e.userId = uid) ∧
    (∀ e, (deleteEntry store id uid).1 = some e → e.userId = uid) ∧
    (∀ e, (toggleFavorite store id uid).1 = some e → e.userId = uid) := by
  refine ⟨?_, ?_, ?_, ?_, ?_⟩
  · intro e he
    exact matchesQuery_userId
      (List.mem_filter.mp (mem_entries_of_getEntries he)).2
  · intro e h
    exact (findOneEntry_spec h).2.1
  · intro e h
    exact updateEntry_userId store id uid b e h
  · intro e h
    unfold deleteEntry at h
    cases hf : findOneEntry store id uid with
    | none => rw [hf] at h; simp at h
    | some e0 =>
      rw [hf] at h
      simp only [Option.some.injEq] at h
      rw [← h]
      exact (findOneEntry_spec hf).2.1
  · intro e h
    unfold toggleFavorite at h
    cases hf : findOneEntry store id uid with
    | none => rw [hf] at h; simp at h
    | some e0 =>
      rw [hf] at h
      simp only [Option.some.injEq] at h
      rw [← h, preSave_userId]
      exact (findOneEntry_spec hf).2.1

/-- C2 witness: the list-query part at the concrete store `wStore` with
the default options, on the returned entry `wEntry1`. -/
theorem c2_operations_owner_scoped_witness :
    wEntry1 ∈ (getEntriesWithFilters wStore 1 {}).entries ∧
    wEntry1.userId = 1 :=
  ⟨by decide,
   (c2_operations_owner_scoped wStore 1 {} 1 {}).1 wEntry1 (by decide)⟩

/-- C3: for every list query with a positive page size, the pagination
object satisfies `hasNext = (page * limit < total)`,
`hasPrev = (page > 1)`, `totalEntries = total` and
`totalPages = ceil(total / limit)`, where `total` is the number of
matching documents. -/
theorem c3_pagination_fields (store : List Entry) (uid : Nat)
    (o : ListOptions) (h : 0 < o.limit) :
    (getEntriesWithFilters store uid o).pagination.totalEntries
      = (store.filter (matchesQuery uid o)).length ∧
    (getEntriesWithFilters store uid o).pagination.hasNext
      = decide (o.page * o.limit <
          (store.filter (matchesQuery uid o)).length) ∧
    (getEntriesWithFilters store uid o).pagination.hasPrev
      = decide (1 < o.page) ∧
    (getEntriesWithFilters store uid o).pagination.totalPages
      = Nat.ceil (((store.filter (matchesQuery uid o)).length : ℚ)
          / (o.limit : ℚ)) := by
  refine ⟨rfl, rfl, rfl, ?_⟩
  exact jsCeilDiv_eq_ceil h

/-- C3 witness: the pagination equations at the concrete store `wStore`,
user 1, default options (page 1, limit 10; two matching entries). -/
theorem c3_pagination_fields_witness :
    0 < (({} : ListOptions)).limit ∧
    (getEntriesWithFilters wStore 1 {}).pagination.totalEntries
      = (wStore.filter (matchesQuery 1 {})).length :=
  ⟨by decide, (c3_pagination_fields wStore 1 {} (by decide)).1⟩

/-- C6: the summary statistics satisfy `totalWords = sum of wordCount
over the user's entries`, and `averageWordsPerEntry` is the rounded
quotient `round(totalWords / totalEntries)` when entries exist and `0`
when the user has none. -/
theorem c6_summary_stats (store : List Entry) (uid : Nat) :
    (statsSummary store uid).totalWords
      = ((store.filter (fun e => e.userId == uid)).map
          (fun e => e.wordCount)).sum ∧
    (0 < (statsSummary store uid).totalEntries →
      (((statsSummary store uid).averageWordsPerEntry : ℕ) : ℤ)
        = round (((statsSummary store uid).totalWords : ℚ)
            / ((statsSummary store uid).totalEntries : ℚ))) ∧
    ((statsSummary store uid).totalEntries = 0 →
      (statsSummary store uid).averageWordsPerEntry = 0) := by
  refine ⟨foldl_add_wordCount _, ?_, ?_⟩
  · intro hpos
    have h1 : (statsSummary store uid).averageWordsPerEntry
        = jsRound (statsSummary store uid).totalWords
            (statsSummary store uid).totalEntries := by
      unfold statsSummary at hpos ⊢
      simp only at hpos ⊢
      rw [if_pos hpos]
    rw [h1]
    exact jsRound_eq_round hpos
  · intro hz
    unfold statsSummary at hz ⊢
    simp only at hz ⊢
    rw [hz]
    simp

/-- C6 witness: the summary equations at the concrete store `wStore`,
user 1 (two entries totalling 6 words, average 3). -/
theorem c6_summary_stats_witness :
    0 < (statsSummary wStore 1).totalEntries ∧
    (((statsSummary wStore 1).averageWordsPerEntry : ℕ) : ℤ)
      = round (((statsSummary wStore 1).totalWords : ℚ)
          / ((statsSummary wStore 1).totalEntries : ℚ)) :=
  ⟨by decide, (c6_summary_stats wStore 1).2.1 (by decide)⟩

theorem getEntries_entries_eq (store : List Entry) (uid : Nat)
    (o : ListOptions) :
    (getEntriesWithFilters store uid o).entries
      = ((sortEntries o.sortBy o.sortOrder
          (store.filter (matchesQuery uid o))).drop
            ((o.page - 1) * o.limit)).take o.limit := rfl

theorem sorted_take_drop {r : Entry → Entry → Prop} {l : List Entry}
    (h : List.Sorted r l) (d t : Nat) :
    List.Sorted r ((l.drop d).take t) :=
  List.Pairwise.sublist
    ((List.take_sublist _ _).trans (List.drop_sublist _ _)) h

/-- C4 counterexample: in a list query with an active search, the
returned order is the date sort, not relevance order: with two matching
entries where the first by date-descending order has strictly smaller
text score than the second, the route returns the lower-scored entry
first. -/
theorem c4_search_not_ranked_by_relevance :
    (getEntriesWithFilters [wEntry1, wEntry2] 1
        { search := some "lisbon" }).entries = [wEntry2, wEntry1] ∧
    textScore "lisbon" wEntry2 < textScore "lisbon" wEntry1 :=
  ⟨by decide, by decide⟩

/-- C4 (amended): a non-empty search string in a list query filters the
results by matching against title, content and tags (whose index weights
are title heaviest, then content, then tags), but the returned page is
ordered by the requested sort field and direction (default date,
descending), whether or not a search is active; relevance ordering is
not applied. -/
theorem c4_amended_search_sorts_by_field (store : List Entry) (uid : Nat)
    (o : ListOptions) :
    (∀ s, o.search = some s → s ≠ "" →
      ∀ e ∈ (getEntriesWithFilters store uid o).entries,
        textMatch s e = true) ∧
    List.Sorted (entryLe o.sortBy o.sortOrder)
      (getEntriesWithFilters store uid o).entries ∧
    contentWeight < titleWeight ∧ tagsWeight < contentWeight := by
  refine ⟨?_, ?_, by decide, by decide⟩
  · intro s hs hne e he
    exact matchesQuery_search
      (List.mem_filter.mp (mem_entries_of_getEntries he)).2 hs hne
  · rw [getEntries_entries_eq]
    exact sorted_take_drop
      (List.sorted_insertionSort (entryLe o.sortBy o.sortOrder) _) _ _

/-- C4 witness: the amended statement at the concrete store
`[wEntry1, wEntry2]`, user 1, search `"lisbon"`, once with the default
date-descending sort and once with an explicitly requested
`wordCount`-ascending sort. -/
theorem c4_amended_search_sorts_by_field_witness :
    (wEntry2 ∈ (getEntriesWithFilters [wEntry1, wEntry2] 1
        { search := some "lisbon" }).entries ∧
      textMatch "lisbon" wEntry2 = true) ∧
    (wEntry1 ∈ (getEntriesWithFilters [wEntry1, wEntry2] 1
        { search := some "lisbon", sortBy := "wordCount",
          sortOrder := "asc" }).entries ∧
      textMatch "lisbon" wEntry1 = true) :=
  ⟨⟨by decide,
    (c4_amended_search_sorts_by_field [wEntry1, wEntry2] 1
        { search := some "lisbon" }).1
      "lisbon" rfl (by decide) wEntry2 (by decide)⟩,
   ⟨by decide,
    (c4_amended_search_sorts_by_field [wEntry1, wEntry2] 1
        { search := some "lisbon", sortBy := "wordCount",
          sortOrder := "asc" }).1
      "lisbon" rfl (by decide) wEntry1 (by decide)⟩⟩

/-- C5: for every calendar request, every grouped entry's date lies in
the inclusive month range and its group key is the `YYYY-MM-DD` day of
its date; `totalEntries` equals the sum of the group sizes and equals
the ungrouped matching count; the group keys appear in first-occurrence
order of the chronological (date-ascending) scan, which is sorted; and a
month with no matching entries yields an empty mapping with
`totalEntries = 0`. -/
theorem c5_calendar_grouping (store : List Entry) (uid : Nat)
    (y m : Nat) :
    (∀ p ∈ (calendarView store uid y m).entries, ∀ e ∈ p.2,
      (dateLe (monthStart y m) e.date ∧ dateLe e.date (monthEnd y m)) ∧
        dateKey e.date = p.1) ∧
    sumSizes (calendarView store uid y m).entries
      = (calendarView store uid y m).totalEntries ∧
    (calendarView store uid y m).totalEntries
      = (store.filter (fun e => e.userId == uid
          && decide (dateLe (monthStart y m) e.date)
          && decide (dateLe e.date (monthEnd y m)))).length ∧
    keysOf (calendarView store uid y m).entries
      = dedupFirst ((sortEntries "date" "asc"
          (store.filter (fun e => e.userId == uid
            && decide (dateLe (monthStart y m) e.date)
            && decide (dateLe e.date (monthEnd y m))))).map
          (fun e => dateKey e.date)) ∧
    List.Sorted (entryLe "date" "asc") (sortEntries "date" "asc"
      (store.filter (fun e => e.userId == uid
        && decide (dateLe (monthStart y m) e.date)
        && decide (dateLe e.date (monthEnd y m))))) ∧
    (store.filter (fun e => e.userId == uid
        && decide (dateLe (monthStart y m) e.date)
        && decide (dateLe e.date (monthEnd y m))) = [] →
      (calendarView store uid y m).entries = [] ∧
      (calendarView store uid y m).totalEntries = 0) := by
  refine ⟨?_, ?_, ?_, ?_, ?_, ?_⟩
  · intro p hp e he
    have hq : ∀ x ∈ sortEntries "date" "asc"
        (store.filter (fun e => e.userId == uid
          && decide (dateLe (monthStart y m) e.date)
          && decide (dateLe e.date (monthEnd y m)))),
        dateLe (monthStart y m) x.date ∧ dateLe x.date (monthEnd y m) := by
      intro x hx
      have hx2 : x ∈ store.filter (fun e => e.userId == uid
          && decide (dateLe (monthStart y m) e.date)
          && decide (dateLe e.date (monthEnd y m))) :=
        (List.mem_insertionSort _).mp hx
      have hpred := (List.mem_filter.mp hx2).2
      simp only [Bool.and_eq_true, decide_eq_true_eq] at hpred
      exact ⟨hpred.1.2, hpred.2⟩
    exact groupByDate_inv hq p hp e he
  · have h := sumSizes_foldl (sortEntries "date" "asc"
      (store.filter (fun e => e.userId == uid
        && decide (dateLe (monthStart y m) e.date)
        && decide (dateLe e.date (monthEnd y m))))) []
    simpa [calendarView, groupByDate, sumSizes] using h
  · show (sortEntries "date" "asc" _).length = _
    unfold sortEntries
    exact List.length_insertionSort _ _
  · unfold dedupFirst
    rw [List.foldl_map]
    exact keysOf_foldl _ []
  · exact List.sorted_insertionSort (entryLe "date" "asc") _
  · intro hempty
    constructor
    · show groupByDate (sortEntries "date" "asc" _) = []
      rw [hempty]
      rfl
    · show (sortEntries "date" "asc" _).length = 0
      rw [hempty]
      rfl

/-- C5 witness: the grouping facts at the concrete store `wCalStore`
(January 2024: two same-day entries grouped under `"2024-01-05"`). -/
theorem c5_calendar_grouping_witness :
    ("2024-01-05", [wEntry1, wEntry4])
      ∈ (calendarView wCalStore 1 2024 1).entries ∧
    wEntry1 ∈ [wEntry1, wEntry4] ∧
    ((dateLe (monthStart 2024 1) wEntry1.date ∧
        dateLe wEntry1.date (monthEnd 2024 1)) ∧
      dateKey wEntry1.date = "2024-01-05") :=
  ⟨by decide, by decide,
   (c5_calendar_grouping wCalStore 1 2024 1).1
     ("2024-01-05", [wEntry1, wEntry4]) (by decide) wEntry1 (by decide)⟩
